import Mathlib

/-!
# Verification of `__config_LoadCmdLine` (src/config/cmdline.c)

Shallow embedding of VLC's command-line configuration parser and proofs of
the specified properties.  The embedding follows the source file
`src/config/cmdline.c`:

* the descriptor registry is a flat list of `module_config_t` records
  (the concatenation of all modules' config items, in traversal order);
* `tablesOf` mirrors the table-building loop (lines 176-250): the long
  option array `p_longopts`, the packed short-option string
  `psz_shortopts` and the 256-slot short table `pp_shortopts`;
* `scanArgs` models the external `getopt_long` scanner (the scanner
  itself is not part of src/; it is modelled from the spec, section 4.3);
* `handleEvent` / `runEvents` are the body of the `while` loop
  (lines 264-417): deprecation handling, coercion and store writes;
* `config_LoadCmdLine` glues the stages together and reports the final
  status, the sequence of configuration-store writes, the diagnostics
  printed to stderr, and the caller-visible argv.
-/

set_option autoImplicit false

namespace Cmdline

/-- Configuration item kinds, following the `CONFIG_ITEM_*` constants.
The several hint subtypes (category/subcategory/usage hints), which the
source detects with the `CONFIG_HINT` bit mask, are collapsed into the
single constructor `CONFIG_HINT`: the parser treats them all identically
(it skips them when building tables and never stores a value for them). -/
inductive CKind where
  | CONFIG_ITEM_STRING
  | CONFIG_ITEM_PASSWORD
  | CONFIG_ITEM_FILE
  | CONFIG_ITEM_DIRECTORY
  | CONFIG_ITEM_MODULE
  | CONFIG_ITEM_MODULE_CAT
  | CONFIG_ITEM_MODULE_LIST
  | CONFIG_ITEM_MODULE_LIST_CAT
  | CONFIG_ITEM_INTEGER
  | CONFIG_ITEM_FLOAT
  | CONFIG_ITEM_KEY
  | CONFIG_ITEM_BOOL
  | CONFIG_HINT
deriving DecidableEq

/-- One option descriptor (`module_config_t`), restricted to the fields
the parser reads: name, optional short flag, kind, deprecation pointer
(`psz_current`) and the strict-removal marker (`b_strict`). -/
structure module_config_t where
  psz_name : String
  i_short : Option Char
  i_type : CKind
  psz_current : Option String
  b_strict : Bool
deriving DecidableEq

/-- One entry of the generated `struct option` array: the externally
visible name, whether the option takes a (required) argument, and the
value stored into the `flag` variable when the entry is matched
(`0` for a primary entry, `1` for a synthetic negation entry). -/
structure getopt_option where
  name : String
  has_arg : Bool
  val : Nat
deriving DecidableEq

/-- The all-zero terminator entry written by `memset` at line 256. -/
def termLongOpt : getopt_option := ⟨"", false, 0⟩

/-- `i_type & CONFIG_HINT` test of line 191 (see `CKind`). -/
def isHint (k : CKind) : Bool := k == CKind.CONFIG_HINT

/-- Long-option entries contributed by one descriptor (lines 194-229):
the primary entry (`no_argument` exactly for booleans, `val = 0`), and
for booleans additionally the two synthetic negation entries
`no<name>` and `no-<name>` (argument-less, `val = 1`). -/
def longEntries (d : module_config_t) : List getopt_option :=
  ⟨d.psz_name, if d.i_type = CKind.CONFIG_ITEM_BOOL then false else true, 0⟩ ::
    (if d.i_type = CKind.CONFIG_ITEM_BOOL then
      [⟨"no" ++ d.psz_name, false, 1⟩, ⟨"no-" ++ d.psz_name, false, 1⟩]
    else [])

/-- Characters appended to `psz_shortopts` by one descriptor
(lines 232-248): the flag itself; a `:` if the kind is not Bool; and an
additional `:` (inside the non-Bool branch) if the flag is `v`. -/
def shortChars (d : module_config_t) : List Char :=
  match d.i_short with
  | none => []
  | some c =>
      c :: (if d.i_type = CKind.CONFIG_ITEM_BOOL then []
            else ':' :: (if c = 'v' then [':'] else []))

/-- Registration into `pp_shortopts` by one descriptor (line 234). -/
def shortReg (d : module_config_t) : List (Char × module_config_t) :=
  match d.i_short with
  | some c => [(c, d)]
  | none => []

/-- The three tables built by the loop at lines 176-250. -/
structure Tables where
  longs : List getopt_option
  sspec : List Char
  stable : List (Char × module_config_t)
deriving DecidableEq

/-- The table-building loop (lines 176-250): hints are skipped entirely;
every other descriptor contributes its long entries, its short-spec
characters and its short-table registration, in registry order. -/
def tablesOf : List module_config_t → Tables
  | [] => ⟨[], [], []⟩
  | d :: ds =>
      let t := tablesOf ds
      if isHint d.i_type then t
      else ⟨longEntries d ++ t.longs, shortChars d ++ t.sspec, shortReg d ++ t.stable⟩

/-- `pp_shortopts[c]`: the direct-address table is overwritten on every
registration, so the **last** registration in traversal order wins. -/
def lookupShort (l : List (Char × module_config_t)) (c : Char) : Option module_config_t :=
  (l.reverse.find? (fun p => p.1 == c)).map (fun p => p.2)

/-- Count of non-hint descriptors (`i_config_items` summed over modules). -/
def countNonHint (reg : List module_config_t) : Nat :=
  (reg.filter (fun d => ! isHint d.i_type)).length

/-- Count of Bool descriptors (`i_bool_items` summed over modules). -/
def countBool (reg : List module_config_t) : Nat :=
  (reg.filter (fun d => d.i_type == CKind.CONFIG_ITEM_BOOL)).length

/-- The long-option array as allocated: live entries plus the zeroed
terminator written at line 256. -/
def longTable (reg : List module_config_t) : List getopt_option :=
  (tablesOf reg).longs ++ [termLongOpt]

/-! ## C library models

`strtol`, `atoi` and `atof` are C library functions; `config_FindConfig`
and the `config_Put*` store operations live in other files of the
repository.  They are modelled here from the spec and the C standard. -/

/-- Whitespace predicate of C `isspace` (the characters skipped by
`strtol`/`atoi`/`atof` before the number). -/
def isSpaceC (c : Char) : Bool :=
  c == ' ' || c == '\t' || c == '\n' || c == '\r' || c == '\x0b' || c == '\x0c'

/-- Value of a hexadecimal digit character. -/
def hexVal (c : Char) : Option Nat :=
  if '0' ≤ c ∧ c ≤ '9' then some (c.toNat - '0'.toNat)
  else if 'a' ≤ c ∧ c ≤ 'f' then some (c.toNat - 'a'.toNat + 10)
  else if 'A' ≤ c ∧ c ≤ 'F' then some (c.toNat - 'A'.toNat + 10)
  else none

/-- Digit value in a given base (bases 8, 10, 16 are used). -/
def digValIn (base : Nat) (c : Char) : Option Nat :=
  match hexVal c with
  | some v => if v < base then some v else none
  | none => none

/-- Accumulate the longest run of digits of `base` (stops at the first
non-digit, like the C parsers). -/
def parseDigitsAux (base : Nat) : List Char → Nat → Nat
  | [], acc => acc
  | c :: cs, acc =>
      match digValIn base c with
      | some v => parseDigitsAux base cs (acc * base + v)
      | none => acc

/-- Modelled from the spec: `strtol(s, NULL, 0)` — base-agnostic integer
parsing: optional whitespace and sign; `0x`/`0X` prefix selects base 16
(only when a hex digit follows), a leading `0` selects base 8, otherwise
base 10; a textually malformed argument yields `0`.  Long-range clamping
is not modelled (no claim depends on values near `LONG_MAX`). -/
def strtol (s : String) : Int :=
  let cs0 := s.data.dropWhile isSpaceC
  let sgn : Bool × List Char :=
    match cs0 with
    | '-' :: r => (true, r)
    | '+' :: r => (false, r)
    | r => (false, r)
  let mag : Nat :=
    match sgn.2 with
    | '0' :: x :: r =>
        if x = 'x' ∨ x = 'X' then
          match r with
          | c :: _ => if (hexVal c).isSome then parseDigitsAux 16 r 0 else 0
          | [] => 0
        else parseDigitsAux 8 (x :: r) 0
    | cs => parseDigitsAux 10 cs 0
  if sgn.1 then -(mag : Int) else (mag : Int)

/-- Modelled from the spec: C `atoi` — optional whitespace and sign,
then decimal digits; malformed text yields `0`. -/
def atoi (s : String) : Int :=
  let cs0 := s.data.dropWhile isSpaceC
  let sgn : Bool × List Char :=
    match cs0 with
    | '-' :: r => (true, r)
    | '+' :: r => (false, r)
    | r => (false, r)
  let mag : Nat := parseDigitsAux 10 sgn.2 0
  if sgn.1 then -(mag : Int) else (mag : Int)

/-- Modelled from the spec: C `atof` on the decimal forms
`[ws][sign]digits[.digits]`, as an exact rational (malformed text yields
`0`).  Exponent/hexadecimal float forms and `float` rounding are not
modelled — no claim depends on a float value. -/
def atofQ (s : String) : Rat :=
  let cs0 := s.data.dropWhile isSpaceC
  let sgn : Bool × List Char :=
    match cs0 with
    | '-' :: r => (true, r)
    | '+' :: r => (false, r)
    | r => (false, r)
  let ipart : Nat := parseDigitsAux 10 sgn.2 0
  let rest := sgn.2.dropWhile (fun c => (digValIn 10 c).isSome)
  let fr : Rat :=
    match rest with
    | '.' :: fcs =>
        let fds := fcs.takeWhile (fun c => (digValIn 10 c).isSome)
        (parseDigitsAux 10 fds 0 : Rat) / (10 : Rat) ^ fds.length
    | _ => 0
  (if sgn.1 then -1 else 1) * ((ipart : Rat) + fr)

/-- A value as it reaches the configuration store: the argument of a
`config_PutPsz` / `config_PutInt` / `config_PutFloat` call.  A string
value carries `none` when the source would pass a NULL `optarg`. -/
inductive CVal where
  | vStr (s : Option String)
  | vInt (n : Int)
  | vFloat (q : Rat)
deriving DecidableEq

/-- Modelled from the spec: `config_FindConfig` — exact-name lookup of a
descriptor in the live registry (first match in traversal order). -/
def config_FindConfig (reg : List module_config_t) (nm : String) : Option module_config_t :=
  reg.find? (fun d => d.psz_name == nm)

/-! ## Scanner (getopt_long), modelled from the spec (section 4.3)

The scanner is external to src/ (`getopt_long`, with the repository's
`extras/getopt.c` as fallback).  It is modelled from the spec: one
left-to-right scan over argv, long options matched exactly against the
generated table, short-option clustering, required arguments taken from
the rest of the token or from the next token, optional arguments (the
doubled `:`) taken only from the rest of the token, and in-place
permutation moving non-option arguments to the end. -/

/-- One event delivered by the scanner to the dispatch loop:
a matched long entry (`i_cmd = 0`, with `flag` set to the entry's `val`),
a matched short flag, or the unknown-option / missing-argument signal
(the `?` return of getopt, with diagnostics data abstracted to the
offending token). -/
inductive GEvent where
  | long (ent : getopt_option) (optarg : Option String)
  | short (c : Char) (optarg : Option String)
  | unknown (tok : String)
deriving DecidableEq

/-- Split `name=value` at the first `=` (the long-option `--name=value`
form); returns the name part and the value part when present. -/
def splitEqAux : List Char → List Char × Option (List Char)
  | [] => ([], none)
  | c :: rest =>
      if c = '=' then ([], some rest)
      else
        let p := splitEqAux rest
        (c :: p.1, p.2)

/-- Number of `:` following a flag in the packed spec (0 = no argument,
1 = required argument, 2 = optional argument). -/
def countColons : List Char → Nat
  | ':' :: ':' :: _ => 2
  | ':' :: _ => 1
  | _ => 0

/-- Arity of a short flag per the packed spec string; `none` when the
flag is not in the spec.  getopt uses the **first** occurrence. -/
def specArity : List Char → Char → Option Nat
  | [], _ => none
  | c :: rest, x =>
      if c = x ∧ ¬ c = ':' then some (countColons rest)
      else specArity rest x

/-- Scan one short-option cluster (the characters after a single `-`).
Returns the events and whether the next argv token was consumed as a
required argument.  An unknown flag yields its event and scanning
continues with the rest of the cluster; a flag with a required argument
takes the rest of the cluster, or else the next token; a flag with an
optional argument takes the rest of the cluster or nothing. -/
def scanCluster (sspec : List Char) : List Char → Option String → List GEvent × Bool
  | [], _ => ([], false)
  | c :: cs, nxt =>
      match specArity sspec c with
      | none =>
          let p := scanCluster sspec cs nxt
          (GEvent.unknown (String.mk ['-', c]) :: p.1, p.2)
      | some 0 =>
          let p := scanCluster sspec cs nxt
          (GEvent.short c none :: p.1, p.2)
      | some 1 =>
          if cs.isEmpty then
            match nxt with
            | some a => ([GEvent.short c (some a)], true)
            | none => ([GEvent.unknown (String.mk ['-', c])], false)
          else ([GEvent.short c (some (String.mk cs))], false)
      | some _ =>
          if cs.isEmpty then ([GEvent.short c none], false)
          else ([GEvent.short c (some (String.mk cs))], false)

/-- Does the token begin with `--`? -/
def startsDashDash (t : String) : Bool :=
  match t.data with
  | '-' :: '-' :: _ => true
  | _ => false

/-- Does the token begin with `-`? -/
def startsDash (t : String) : Bool :=
  match t.data with
  | '-' :: _ => true
  | _ => false

/-- Result of a full scan: the event stream, the option tokens in
processing order, and the non-option tokens (moved to the end by the
in-place permutation). -/
structure ScanOut where
  events : List GEvent
  optToks : List String
  nonopts : List String
deriving DecidableEq

/-- The scan itself (see the section comment above). `--` terminates
option processing; a token that is `-` or carries no dash is a
non-option and is deferred to the end. -/
def scanArgs (longs : List getopt_option) (sspec : List Char) (argv : List String) : ScanOut :=
  match argv with
  | [] => ⟨[], [], []⟩
  | t :: rest =>
      if t = "--" then ⟨[], ["--"], rest⟩
      else if startsDashDash t then
        let p := splitEqAux (t.data.drop 2)
        let nm := String.mk p.1
        match longs.find? (fun e => e.name == nm) with
        | some e =>
            if e.has_arg then
              match p.2 with
              | some a =>
                  let s := scanArgs longs sspec rest
                  ⟨GEvent.long e (some (String.mk a)) :: s.events, t :: s.optToks, s.nonopts⟩
              | none =>
                  match rest with
                  | [] => ⟨[GEvent.unknown t], [t], []⟩
                  | a :: rest2 =>
                      let s := scanArgs longs sspec rest2
                      ⟨GEvent.long e (some a) :: s.events, t :: a :: s.optToks, s.nonopts⟩
            else
              match p.2 with
              | some _ =>
                  let s := scanArgs longs sspec rest
                  ⟨GEvent.unknown t :: s.events, t :: s.optToks, s.nonopts⟩
              | none =>
                  let s := scanArgs longs sspec rest
                  ⟨GEvent.long e none :: s.events, t :: s.optToks, s.nonopts⟩
        | none =>
            let s := scanArgs longs sspec rest
            ⟨GEvent.unknown t :: s.events, t :: s.optToks, s.nonopts⟩
      else if startsDash t ∧ ¬ t = "-" then
        let p := scanCluster sspec (t.data.drop 1) rest.head?
        if p.2 then
          match rest with
          | [] => ⟨p.1, [t], []⟩
          | a :: rest2 =>
              let s := scanArgs longs sspec rest2
              ⟨p.1 ++ s.events, t :: a :: s.optToks, s.nonopts⟩
        else
          let s := scanArgs longs sspec rest
          ⟨p.1 ++ s.events, t :: s.optToks, s.nonopts⟩
      else
        let s := scanArgs longs sspec rest
        ⟨s.events, s.optToks, t :: s.nonopts⟩

/-! ## Dispatch loop (lines 264-417 of the source) -/

/-- Running state of the dispatch loop: the verbosity counter
`i_verbose`, the configuration-store writes performed so far (in order),
and the diagnostics printed to stderr so far. -/
structure HState where
  i_verbose : Int
  writes : List (String × CVal)
  msgs : List String
deriving DecidableEq

/-- Result of one step (or of the whole loop): continue with a new
state, abort the call (`return -1`), or reach the NULL-descriptor
dereference of line 310 (when the re-lookup of a deprecation replacement
at line 307 failed). -/
inductive StepOut where
  | cont (s : HState)
  | abort (s : HState)
  | nullDeref (s : HState)
deriving DecidableEq

/-- The state carried by any `StepOut`. -/
def StepOut.state : StepOut → HState
  | .cont s => s
  | .abort s => s
  | .nullDeref s => s

/-- Whether a `StepOut` continues the loop. -/
def StepOut.isCont : StepOut → Bool
  | .cont _ => true
  | _ => false

/-- Diagnostic of line 285 (strictly removed option). -/
def removedMsg (nm : String) : String :=
  "Warning: option --" ++ nm ++ " no longer exists."

/-- Diagnostic of line 291 (deprecated option; severity depends on the
operating mode). -/
def deprecatedMsg (ignore : Bool) (oldName newName : String) : String :=
  (if ignore then "Warning" else "Error") ++ ": option --" ++ oldName ++
    " is deprecated. Use --" ++ newName ++ " instead."

/-- Diagnostic of lines 397-409 (unknown option / missing argument; the
offending token or flag is abstracted away). -/
def unknownMsg : String := "unknown option or missing mandatory argument"

/-- Append a stderr diagnostic. -/
def addMsg (s : HState) (m : String) : HState :=
  { s with msgs := s.msgs ++ [m] }

/-- `psz_name += psz_name[2] == '-' ? 3 : 2` (line 274): strip the
`no`/`no-` negation prefix from a matched long-option name. -/
def stripNo (s : String) : String :=
  if s.data.get? 2 = some '-' then String.mk (s.data.drop 3)
  else String.mk (s.data.drop 2)

/-- The name looked up in the registry for a matched long entry
(lines 271-277): the entry's own name, with the negation prefix stripped
when `flag` (the entry's `val`) is nonzero. -/
def resolvedName (ent : getopt_option) : String :=
  if ent.val ≠ 0 then stripNo ent.name else ent.name

/-- `optarg` as handed to the C string functions; descriptors reachable
with a NULL `optarg` are modelled with the empty string (with the
generated tables this case is unreachable for argument-taking kinds). -/
def optargStr (a : Option String) : String := a.getD ""

/-- The coercion switch of lines 310-334: the value passed to the
configuration store for one matched long option, by kind.  `none` for
hints (the switch has no case for them, so nothing is stored).  `flag`
is the matched entry's `val`; a Bool kind stores `!flag`. -/
def coerceVal (ktc : String → Int) (k : CKind) (optarg : Option String) (flag : Nat) : Option CVal :=
  match k with
  | .CONFIG_ITEM_STRING | .CONFIG_ITEM_PASSWORD | .CONFIG_ITEM_FILE
  | .CONFIG_ITEM_DIRECTORY | .CONFIG_ITEM_MODULE | .CONFIG_ITEM_MODULE_CAT
  | .CONFIG_ITEM_MODULE_LIST | .CONFIG_ITEM_MODULE_LIST_CAT =>
      some (CVal.vStr optarg)
  | .CONFIG_ITEM_INTEGER => some (CVal.vInt (strtol (optargStr optarg)))
  | .CONFIG_ITEM_FLOAT => some (CVal.vFloat (atofQ (optargStr optarg)))
  | .CONFIG_ITEM_KEY => some (CVal.vInt (ktc (optargStr optarg)))
  | .CONFIG_ITEM_BOOL => some (CVal.vInt (if flag ≠ 0 then 0 else 1))
  | .CONFIG_HINT => none

/-- Perform the store write of the long-option coercion switch. -/
def doWrite (ktc : String → Int) (s : HState) (k : CKind) (nm : String)
    (optarg : Option String) (flag : Nat) : HState :=
  match coerceVal ktc k optarg flag with
  | some v => { s with writes := s.writes ++ [(nm, v)] }
  | none => s

/-- Verbosity increment of lines 357-376: a missing optional argument
adds 1; an argument starting with `v` adds one plus one per leading `v`;
any other argument adds its `atoi` value. -/
def vAdd (optarg : Option String) : Int :=
  match optarg with
  | none => 1
  | some a =>
      if a.data.head? = some 'v' then 1 + ((a.data.takeWhile (fun c => c == 'v')).length : Int)
      else atoi a

/-- The body of the `while` loop (lines 266-416) for one scanner event:
long-option resolution with deprecation handling and coercion
(lines 268-337), the short-option switch (lines 340-392) with the
verbosity special case, and the unknown-option branch (lines 394-416). -/
def handleEvent (reg : List module_config_t) (stable : List (Char × module_config_t))
    (ktc : String → Int) (ignore : Bool) (s : HState) : GEvent → StepOut
  | .long ent optarg =>
      let nm := resolvedName ent
      match config_FindConfig reg nm with
      | some pc =>
          match pc.psz_current with
          | some repl =>
              if pc.b_strict then
                StepOut.cont (addMsg s (removedMsg pc.psz_name))
              else
                let s1 := addMsg s (deprecatedMsg ignore pc.psz_name repl)
                if ignore then
                  match config_FindConfig reg repl with
                  | some pc2 => StepOut.cont (doWrite ktc s1 pc2.i_type repl optarg ent.val)
                  | none => StepOut.nullDeref s1
                else StepOut.abort s1
          | none => StepOut.cont (doWrite ktc s pc.i_type nm optarg ent.val)
      | none =>
          if ignore then StepOut.cont s else StepOut.abort (addMsg s unknownMsg)
  | .short c optarg =>
      match lookupShort stable c with
      | some pc =>
          match pc.i_type with
          | .CONFIG_ITEM_STRING | .CONFIG_ITEM_PASSWORD | .CONFIG_ITEM_FILE
          | .CONFIG_ITEM_DIRECTORY | .CONFIG_ITEM_MODULE | .CONFIG_ITEM_MODULE_CAT
          | .CONFIG_ITEM_MODULE_LIST | .CONFIG_ITEM_MODULE_LIST_CAT =>
              StepOut.cont { s with writes := s.writes ++ [(pc.psz_name, CVal.vStr optarg)] }
          | .CONFIG_ITEM_INTEGER =>
              if c = 'v' then
                let v2 := s.i_verbose + vAdd optarg
                StepOut.cont ⟨v2, s.writes ++ [(pc.psz_name, CVal.vInt v2)], s.msgs⟩
              else
                StepOut.cont { s with
                  writes := s.writes ++ [(pc.psz_name, CVal.vInt (strtol (optargStr optarg)))] }
          | .CONFIG_ITEM_BOOL =>
              StepOut.cont { s with writes := s.writes ++ [(pc.psz_name, CVal.vInt 1)] }
          | _ => StepOut.cont s
      | none =>
          if ignore then StepOut.cont s else StepOut.abort (addMsg s unknownMsg)
  | .unknown _ =>
      if ignore then StepOut.cont s else StepOut.abort (addMsg s unknownMsg)

/-- The whole dispatch loop over the scanner's event stream. -/
def runEvents (reg : List module_config_t) (stable : List (Char × module_config_t))
    (ktc : String → Int) (ignore : Bool) (s : HState) : List GEvent → StepOut
  | [] => StepOut.cont s
  | e :: es =>
      match handleEvent reg stable ktc ignore s e with
      | .cont s1 => runEvents reg stable ktc ignore s1 es
      | .abort s1 => StepOut.abort s1
      | .nullDeref s1 => StepOut.nullDeref s1

/-- Observable result of one `__config_LoadCmdLine` call: the return
status, the configuration-store writes in order, the stderr
diagnostics, the argument array as the caller sees it afterwards, and
whether the NULL-descriptor dereference of line 310 was reached
(`ub = true` means the C program has no defined result at all). -/
structure LoadResult where
  status : Int
  writes : List (String × CVal)
  msgs : List String
  callerArgv : List String
  ub : Bool
deriving DecidableEq

/-- `__config_LoadCmdLine` (lines 76-427), with allocation assumed to
succeed: build the tables from the registry, scan argv, run the
dispatch loop; in permissive mode (`b_ignore_errors`) the scanner runs
over a private copy of argv (lines 151-167) so the caller's array is
left untouched, while in strict mode the caller's array receives the
scanner's in-place permutation. -/
def config_LoadCmdLine (reg : List module_config_t) (ktc : String → Int)
    (ignore : Bool) (argv : List String) : LoadResult :=
  { status :=
      match runEvents reg (tablesOf reg).stable ktc ignore ⟨0, [], []⟩
          (scanArgs (tablesOf reg).longs (tablesOf reg).sspec argv).events with
      | .abort _ => -1
      | _ => 0
  , writes :=
      (runEvents reg (tablesOf reg).stable ktc ignore ⟨0, [], []⟩
          (scanArgs (tablesOf reg).longs (tablesOf reg).sspec argv).events).state.writes
  , msgs :=
      (runEvents reg (tablesOf reg).stable ktc ignore ⟨0, [], []⟩
          (scanArgs (tablesOf reg).longs (tablesOf reg).sspec argv).events).state.msgs
  , callerArgv :=
      if ignore then argv
      else (scanArgs (tablesOf reg).longs (tablesOf reg).sspec argv).optToks ++
           (scanArgs (tablesOf reg).longs (tablesOf reg).sspec argv).nonopts
  , ub :=
      match runEvents reg (tablesOf reg).stable ktc ignore ⟨0, [], []⟩
          (scanArgs (tablesOf reg).longs (tablesOf reg).sspec argv).events with
      | .nullDeref _ => true
      | _ => false }

/-- A registry is well formed when every deprecation replacement name
resolves in the registry (checked per item). -/
def wfItem (reg : List module_config_t) (d : module_config_t) : Bool :=
  match d.psz_current with
  | some r => (config_FindConfig reg r).isSome
  | none => true

/-- All deprecation replacement names resolve. -/
def WellFormedR (reg : List module_config_t) : Prop :=
  ∀ d ∈ reg, wfItem reg d = true

instance (reg : List module_config_t) : Decidable (WellFormedR reg) :=
  List.decidableBAll (fun d => wfItem reg d = true) reg

/-! ## Concrete registries used as test inputs -/

/-- Trivial key-name translator used for concrete runs. -/
def ktc0 : String → Int := fun _ => 0

/-- A registry holding only the verbosity option. -/
def vReg : List module_config_t :=
  [⟨"verbose", some 'v', CKind.CONFIG_ITEM_INTEGER, none, false⟩]

/-- A deprecated (non-removed) Integer option that also carries the
short flag `x`, plus its replacement. -/
def regC1 : List module_config_t :=
  [⟨"oldx", some 'x', CKind.CONFIG_ITEM_INTEGER, some "newx", false⟩,
   ⟨"newx", none, CKind.CONFIG_ITEM_INTEGER, none, false⟩]

/-- A strictly removed Integer option that also carries the short
flag `y`. -/
def regC6 : List module_config_t :=
  [⟨"gone", some 'y', CKind.CONFIG_ITEM_INTEGER, some "ghost", true⟩]

/-- A deprecated option whose replacement name resolves to nothing. -/
def regC10 : List module_config_t :=
  [⟨"olddang", none, CKind.CONFIG_ITEM_INTEGER, some "ghost", false⟩]

/-- A registry holding one Bool option. -/
def regW3 : List module_config_t :=
  [⟨"foo", none, CKind.CONFIG_ITEM_BOOL, none, false⟩]

/-- A registry holding one plain Integer option. -/
def iReg : List module_config_t :=
  [⟨"num", none, CKind.CONFIG_ITEM_INTEGER, none, false⟩]

/-- A String-kind descriptor carrying the short flag `v`. -/
def dC9 : module_config_t := ⟨"vstr", some 'v', CKind.CONFIG_ITEM_STRING, none, false⟩

/-- The per-descriptor short-spec contribution exactly as the spec
sentence behind claim C9 words it: a single `:` for every non-Bool kind,
and the extra second `:` only when the flag is `v` **and** the kind is
Integer. -/
def shortCharsClaim (d : module_config_t) : List Char :=
  match d.i_short with
  | none => []
  | some c =>
      c :: ((if d.i_type = CKind.CONFIG_ITEM_BOOL then [] else [':']) ++
            (if c = 'v' ∧ d.i_type = CKind.CONFIG_ITEM_INTEGER then [':'] else []))

/-! ## Helper lemmas -/

theorem tablesOf_longs_length (reg : List module_config_t) :
    (tablesOf reg).longs.length = countNonHint reg + 2 * countBool reg := by
  induction reg with
  | nil => rfl
  | cons d ds ih =>
      cases hk : d.i_type <;>
        simp [tablesOf, longEntries, countNonHint, countBool, isHint, hk,
              List.filter_cons, ih] <;> omega

theorem tablesOf_filter_hint (reg : List module_config_t) :
    tablesOf (reg.filter (fun d => ! isHint d.i_type)) = tablesOf reg := by
  induction reg with
  | nil => rfl
  | cons d ds ih =>
      cases hd : isHint d.i_type <;> simp [tablesOf, hd, List.filter_cons, ih]

theorem tablesOf_sspec_bind (reg : List module_config_t) :
    (tablesOf reg).sspec = (reg.filter (fun d => ! isHint d.i_type)).flatMap shortChars := by
  induction reg with
  | nil => rfl
  | cons d ds ih =>
      cases hd : isHint d.i_type <;> simp [tablesOf, hd, List.filter_cons, ih]

theorem mem_longs_of_mem (reg : List module_config_t) (d : module_config_t)
    (e : getopt_option) (hd : d ∈ reg) (hh : isHint d.i_type = false)
    (he : e ∈ longEntries d) : e ∈ (tablesOf reg).longs := by
  induction reg with
  | nil => cases hd
  | cons a ds ih =>
      rcases List.mem_cons.mp hd with h | h
      · subst h
        simp [tablesOf, hh]
        exact Or.inl he
      · cases ha : isHint a.i_type with
        | true => simpa [tablesOf, ha] using ih h
        | false =>
            simp [tablesOf, ha]
            exact Or.inr (by simpa [tablesOf] using ih h)

theorem stripNo_no (n : String) (h : n.data.head? ≠ some '-') :
    stripNo ("no" ++ n) = n := by
  obtain ⟨l⟩ := n
  have hd : ("no" ++ String.mk l).data = 'n' :: 'o' :: l := rfl
  cases l with
  | nil => simp [stripNo, hd]
  | cons c cs =>
      have hc : ¬ c = '-' := by
        intro hcc
        exact h (by simp [hcc])
      simp [stripNo, hd, hc]

theorem stripNo_no_dash (n : String) : stripNo ("no-" ++ n) = n := by
  obtain ⟨l⟩ := n
  have hd : ("no-" ++ String.mk l).data = 'n' :: 'o' :: '-' :: l := rfl
  simp [stripNo, hd]

theorem runEvents_append (reg : List module_config_t)
    (stable : List (Char × module_config_t)) (ktc : String → Int) (ig : Bool)
    (s : HState) (xs ys : List GEvent) :
    runEvents reg stable ktc ig s (xs ++ ys) =
      match runEvents reg stable ktc ig s xs with
      | .cont s1 => runEvents reg stable ktc ig s1 ys
      | .abort s1 => .abort s1
      | .nullDeref s1 => .nullDeref s1 := by
  induction xs generalizing s with
  | nil => simp [runEvents]
  | cons e es ih =>
      simp only [List.cons_append, runEvents]
      cases handleEvent reg stable ktc ig s e <;> simp [ih]

theorem handle_permissive_isCont (reg : List module_config_t)
    (stable : List (Char × module_config_t)) (ktc : String → Int)
    (hwf : WellFormedR reg) (s : HState) (e : GEvent) :
    (handleEvent reg stable ktc true s e).isCont = true := by
  cases e with
  | long ent a =>
      cases hfc : config_FindConfig reg (resolvedName ent) with
      | none => simp [handleEvent, hfc, StepOut.isCont]
      | some pc =>
          cases hcur : pc.psz_current with
          | none => simp [handleEvent, hfc, hcur, StepOut.isCont]
          | some r =>
              cases hbs : pc.b_strict with
              | true => simp [handleEvent, hfc, hcur, hbs, StepOut.isCont]
              | false =>
                  have hmem : pc ∈ reg := List.mem_of_find?_eq_some hfc
                  have hw := hwf pc hmem
                  rw [wfItem, hcur] at hw
                  obtain ⟨pc2, h2⟩ := Option.isSome_iff_exists.mp hw
                  simp [handleEvent, hfc, hcur, hbs, h2, StepOut.isCont]
  | short c a =>
      cases h : lookupShort stable c with
      | none => simp [handleEvent, h, StepOut.isCont]
      | some pc =>
          cases hk : pc.i_type <;> simp only [handleEvent, h, hk] <;>
            first
            | rfl
            | (split <;> rfl)
  | unknown t => simp [handleEvent, StepOut.isCont]

theorem run_permissive_isCont (reg : List module_config_t)
    (stable : List (Char × module_config_t)) (ktc : String → Int)
    (hwf : WellFormedR reg) (evs : List GEvent) (s : HState) :
    (runEvents reg stable ktc true s evs).isCont = true := by
  induction evs generalizing s with
  | nil => rfl
  | cons e es ih =>
      have h := handle_permissive_isCont reg stable ktc hwf s e
      simp only [runEvents]
      cases hh : handleEvent reg stable ktc true s e with
      | cont s1 => exact ih s1
      | abort s1 => rw [hh] at h; simp [StepOut.isCont] at h
      | nullDeref s1 => rw [hh] at h; simp [StepOut.isCont] at h

theorem load_permissive_ok (reg : List module_config_t) (ktc : String → Int)
    (argv : List String) (hwf : WellFormedR reg) :
    (config_LoadCmdLine reg ktc true argv).status = 0 ∧
      (config_LoadCmdLine reg ktc true argv).ub = false := by
  have h := run_permissive_isCont reg (tablesOf reg).stable ktc hwf
    (scanArgs (tablesOf reg).longs (tablesOf reg).sspec argv).events ⟨0, [], []⟩
  unfold config_LoadCmdLine
  cases hh : runEvents reg (tablesOf reg).stable ktc true ⟨0, [], []⟩
      (scanArgs (tablesOf reg).longs (tablesOf reg).sspec argv).events with
  | cont s1 => simp [hh]
  | abort s1 => rw [hh] at h; simp [StepOut.isCont] at h
  | nullDeref s1 => rw [hh] at h; simp [StepOut.isCont] at h

/-! ## Claim theorems -/

/-- Claim C4: for every descriptor set (no allocation failures in the
model), the generated long-option table has exactly
`countNonHint + 2*countBool` live entries followed by one zeroed
terminator entry, and hint descriptors contribute nothing (the tables of
the registry equal the tables of its non-hint restriction). -/
theorem c4_table_size (reg : List module_config_t) :
    (tablesOf reg).longs.length = countNonHint reg + 2 * countBool reg
    ∧ (longTable reg).length = countNonHint reg + 2 * countBool reg + 1
    ∧ (longTable reg).getLast? = some termLongOpt
    ∧ tablesOf (reg.filter (fun d => ! isHint d.i_type)) = tablesOf reg := by
  refine ⟨tablesOf_longs_length reg, ?_, ?_, tablesOf_filter_hint reg⟩
  · simp [longTable, tablesOf_longs_length reg]
  · simp [longTable]

/-- Claim C9, counterexample: a String-kind descriptor with short flag
`v` receives the doubled `:` in the packed spec (the source adds the
second `:` for any non-Bool kind, line 242), whereas the claim predicts
a single `:` because the kind is not Integer. -/
theorem c9_counterexample :
    shortChars dC9 ≠ shortCharsClaim dC9
    ∧ shortChars dC9 = ['v', ':', ':']
    ∧ shortCharsClaim dC9 = ['v', ':']
    ∧ (tablesOf [dC9]).sspec = ['v', ':', ':'] := by
  decide

/-- Claim C9, amended: the packed short-option spec is the concatenation
of the per-descriptor contributions over non-hint descriptors, and a
descriptor with short flag `c` contributes the extra second `:` exactly
when `c` is `v` and the kind is **non-Bool** (not only Integer); a
single `:` for any other non-Bool kind, nothing after the flag for
Bool. -/
theorem c9_amended (reg : List module_config_t) (d : module_config_t) (c : Char)
    (hshort : d.i_short = some c) :
    (tablesOf reg).sspec = (reg.filter (fun x => ! isHint x.i_type)).flatMap shortChars
    ∧ shortChars d =
        c :: ((if d.i_type = CKind.CONFIG_ITEM_BOOL then [] else [':']) ++
              (if c = 'v' ∧ ¬ d.i_type = CKind.CONFIG_ITEM_BOOL then [':'] else [])) := by
  refine ⟨tablesOf_sspec_bind reg, ?_⟩
  by_cases hb : d.i_type = CKind.CONFIG_ITEM_BOOL <;> by_cases hv : c = 'v' <;>
    simp [shortChars, hshort, hb, hv]

/-- Witness for `c9_amended` at the verbosity descriptor. -/
theorem c9_witness :
    (tablesOf vReg).sspec = (vReg.filter (fun x => ! isHint x.i_type)).flatMap shortChars
    ∧ shortChars ⟨"verbose", some 'v', CKind.CONFIG_ITEM_INTEGER, none, false⟩
        = ['v', ':', ':'] := by
  have h := c9_amended vReg
    ⟨"verbose", some 'v', CKind.CONFIG_ITEM_INTEGER, none, false⟩ 'v' rfl
  exact ⟨h.1, by simpa using h.2⟩

/-- Claim C3: for a Bool descriptor `X` (unique under its name, not
deprecated), the long table contains the primary entry and both
synthetic negation entries `noX` / `no-X`; matching either negation
form writes `0` under `X`'s name, matching the primary form writes
`1`. -/
theorem c3_bool_negation (reg : List module_config_t) (X : module_config_t)
    (stable : List (Char × module_config_t)) (ktc : String → Int) (ig : Bool)
    (s : HState) (a : Option String)
    (hmem : X ∈ reg) (hb : X.i_type = CKind.CONFIG_ITEM_BOOL)
    (hnd : X.psz_current = none)
    (hfind : config_FindConfig reg X.psz_name = some X)
    (hh : X.psz_name.data.head? ≠ some '-') :
    (⟨X.psz_name, false, 0⟩ : getopt_option) ∈ (tablesOf reg).longs
    ∧ (⟨"no" ++ X.psz_name, false, 1⟩ : getopt_option) ∈ (tablesOf reg).longs
    ∧ (⟨"no-" ++ X.psz_name, false, 1⟩ : getopt_option) ∈ (tablesOf reg).longs
    ∧ handleEvent reg stable ktc ig s (.long ⟨"no" ++ X.psz_name, false, 1⟩ a)
        = .cont ⟨s.i_verbose, s.writes ++ [(X.psz_name, CVal.vInt 0)], s.msgs⟩
    ∧ handleEvent reg stable ktc ig s (.long ⟨"no-" ++ X.psz_name, false, 1⟩ a)
        = .cont ⟨s.i_verbose, s.writes ++ [(X.psz_name, CVal.vInt 0)], s.msgs⟩
    ∧ handleEvent reg stable ktc ig s (.long ⟨X.psz_name, false, 0⟩ a)
        = .cont ⟨s.i_verbose, s.writes ++ [(X.psz_name, CVal.vInt 1)], s.msgs⟩ := by
  have hhint : isHint X.i_type = false := by simp [isHint, hb]
  have hno : resolvedName ⟨"no" ++ X.psz_name, false, 1⟩ = X.psz_name := by
    simp [resolvedName, stripNo_no _ hh]
  have hnodash : resolvedName ⟨"no-" ++ X.psz_name, false, 1⟩ = X.psz_name := by
    simp [resolvedName, stripNo_no_dash]
  have hprim : resolvedName ⟨X.psz_name, false, 0⟩ = X.psz_name := by
    simp [resolvedName]
  refine ⟨?_, ?_, ?_, ?_, ?_, ?_⟩
  · exact mem_longs_of_mem reg X _ hmem hhint (by simp [longEntries, hb])
  · exact mem_longs_of_mem reg X _ hmem hhint (by simp [longEntries, hb])
  · exact mem_longs_of_mem reg X _ hmem hhint (by simp [longEntries, hb])
  · simp [handleEvent, hno, hfind, hnd, doWrite, coerceVal, hb]
  · simp [handleEvent, hnodash, hfind, hnd, doWrite, coerceVal, hb]
  · simp [handleEvent, hprim, hfind, hnd, doWrite, coerceVal, hb]

/-- Witness for `c3_bool_negation` at a concrete one-element registry. -/
theorem c3_witness :
    (⟨"foo", false, 0⟩ : getopt_option) ∈ (tablesOf regW3).longs
    ∧ (⟨"nofoo", false, 1⟩ : getopt_option) ∈ (tablesOf regW3).longs
    ∧ (⟨"no-foo", false, 1⟩ : getopt_option) ∈ (tablesOf regW3).longs
    ∧ handleEvent regW3 [] ktc0 true ⟨0, [], []⟩ (.long ⟨"nofoo", false, 1⟩ none)
        = .cont ⟨0, [("foo", CVal.vInt 0)], []⟩
    ∧ handleEvent regW3 [] ktc0 true ⟨0, [], []⟩ (.long ⟨"no-foo", false, 1⟩ none)
        = .cont ⟨0, [("foo", CVal.vInt 0)], []⟩
    ∧ handleEvent regW3 [] ktc0 true ⟨0, [], []⟩ (.long ⟨"foo", false, 0⟩ none)
        = .cont ⟨0, [("foo", CVal.vInt 1)], []⟩ := by
  have h := c3_bool_negation regW3 ⟨"foo", none, CKind.CONFIG_ITEM_BOOL, none, false⟩
    [] ktc0 true ⟨0, [], []⟩ none (by decide) rfl rfl (by decide) (by decide)
  exact ⟨by simpa using h.1, by simpa using h.2.1, by simpa using h.2.2.1,
         by simpa using h.2.2.2.1, by simpa using h.2.2.2.2.1,
         by simpa using h.2.2.2.2.2⟩

/-- Claim C1, counterexample: a deprecated-but-not-removed descriptor
that carries a short flag is matched through the short table without any
deprecation check (lines 340-389): in strict mode the call succeeds
(status `0`, not `-1`) and the value is written under the **old** name;
in permissive mode the value is likewise stored under the old name, not
the replacement. -/
theorem c1_counterexample :
    (config_LoadCmdLine regC1 ktc0 false ["-x", "5"]).status = 0
    ∧ (config_LoadCmdLine regC1 ktc0 false ["-x", "5"]).writes = [("oldx", CVal.vInt 5)]
    ∧ ¬ (config_LoadCmdLine regC1 ktc0 false ["-x", "5"]).writes = []
    ∧ (config_LoadCmdLine regC1 ktc0 true ["-x", "5"]).writes = [("oldx", CVal.vInt 5)] := by
  decide

/-- Claim C1, amended (restricted to tokens matched through the
long-option table): when the scan yields a long match whose resolved
descriptor is deprecated but not strictly removed, strict mode aborts
the whole call with status `-1`, performing no store write for that
option or any later event (the writes are exactly those of the prefix),
and records the deprecation diagnostic; permissive mode continues, with
the value stored under the replacement descriptor's name, coerced
according to the replacement descriptor's kind. -/
theorem c1_amended (reg : List module_config_t) (ktc : String → Int)
    (argv : List String) (ent : getopt_option) (a : Option String)
    (pre post : List GEvent) (ot nt : List String)
    (d d2 : module_config_t) (r : String) (v : CVal) (s1 s : HState)
    (hscan : scanArgs (tablesOf reg).longs (tablesOf reg).sspec argv
        = ⟨pre ++ GEvent.long ent a :: post, ot, nt⟩)
    (hd : config_FindConfig reg (resolvedName ent) = some d)
    (hdep : d.psz_current = some r) (hns : d.b_strict = false)
    (hrepl : config_FindConfig reg r = some d2)
    (hv : coerceVal ktc d2.i_type a ent.val = some v)
    (hpre : runEvents reg (tablesOf reg).stable ktc false ⟨0, [], []⟩ pre
        = .cont s1) :
    (config_LoadCmdLine reg ktc false argv).status = -1
    ∧ (config_LoadCmdLine reg ktc false argv).writes = s1.writes
    ∧ (config_LoadCmdLine reg ktc false argv).msgs
        = s1.msgs ++ [deprecatedMsg false d.psz_name r]
    ∧ handleEvent reg (tablesOf reg).stable ktc true s (.long ent a)
        = .cont ⟨s.i_verbose, s.writes ++ [(r, v)],
                 s.msgs ++ [deprecatedMsg true d.psz_name r]⟩ := by
  have hstep : handleEvent reg (tablesOf reg).stable ktc false s1 (.long ent a)
      = .abort (addMsg s1 (deprecatedMsg false d.psz_name r)) := by
    simp [handleEvent, hd, hdep, hns]
  have hrun : runEvents reg (tablesOf reg).stable ktc false ⟨0, [], []⟩
      (pre ++ GEvent.long ent a :: post)
      = .abort (addMsg s1 (deprecatedMsg false d.psz_name r)) := by
    rw [runEvents_append, hpre]
    simp [runEvents, hstep]
  refine ⟨?_, ?_, ?_, ?_⟩
  · simp [config_LoadCmdLine, hscan, hrun]
  · simp [config_LoadCmdLine, hscan, hrun, StepOut.state, addMsg]
  · simp [config_LoadCmdLine, hscan, hrun, StepOut.state, addMsg]
  · simp [handleEvent, hd, hdep, hns, hrepl, doWrite, hv, addMsg]

/-- Witness for `c1_amended`: `--oldx 5` on the two-element registry. -/
theorem c1_witness :
    (config_LoadCmdLine regC1 ktc0 false ["--oldx", "5"]).status = -1
    ∧ (config_LoadCmdLine regC1 ktc0 false ["--oldx", "5"]).writes = []
    ∧ (config_LoadCmdLine regC1 ktc0 false ["--oldx", "5"]).msgs
        = [deprecatedMsg false "oldx" "newx"]
    ∧ handleEvent regC1 (tablesOf regC1).stable ktc0 true ⟨0, [], []⟩
        (.long ⟨"oldx", true, 0⟩ (some "5"))
        = .cont ⟨0, [("newx", CVal.vInt 5)], [deprecatedMsg true "oldx" "newx"]⟩ := by
  have h := c1_amended regC1 ktc0 ["--oldx", "5"] ⟨"oldx", true, 0⟩ (some "5")
    [] [] ["--oldx", "5"] [] ⟨"oldx", some 'x', CKind.CONFIG_ITEM_INTEGER, some "newx", false⟩
    ⟨"newx", none, CKind.CONFIG_ITEM_INTEGER, none, false⟩ "newx" (CVal.vInt 5)
    ⟨0, [], []⟩ ⟨0, [], []⟩ (by decide) (by decide) rfl rfl (by decide) (by decide) rfl
  exact ⟨h.1, by simpa using h.2.1, by simpa using h.2.2.1, by simpa using h.2.2.2⟩

/-- Claim C6, counterexample: a strictly removed descriptor that carries
a short flag is matched through the short table with no removal check:
the value **is** written to the store (under the old name) and no
warning is emitted, in permissive mode just as in strict mode. -/
theorem c6_counterexample :
    (config_LoadCmdLine regC6 ktc0 true ["-y", "5"]).writes = [("gone", CVal.vInt 5)]
    ∧ ¬ (config_LoadCmdLine regC6 ktc0 true ["-y", "5"]).writes = []
    ∧ (config_LoadCmdLine regC6 ktc0 true ["-y", "5"]).msgs = []
    ∧ (config_LoadCmdLine regC6 ktc0 false ["-y", "5"]).writes = [("gone", CVal.vInt 5)] := by
  decide

/-- Claim C6, amended (restricted to long-option matches): when a
matched long entry resolves to a strictly removed descriptor, a warning
is emitted, the value is discarded, the loop continues with the next
token, and no store write occurs — identically in strict and permissive
mode. -/
theorem c6_removed (reg : List module_config_t)
    (stable : List (Char × module_config_t)) (ktc : String → Int) (ig : Bool)
    (s : HState) (ent : getopt_option) (a : Option String)
    (d : module_config_t) (r : String)
    (hd : config_FindConfig reg (resolvedName ent) = some d)
    (hdep : d.psz_current = some r) (hs : d.b_strict = true) :
    handleEvent reg stable ktc ig s (.long ent a)
      = .cont ⟨s.i_verbose, s.writes, s.msgs ++ [removedMsg d.psz_name]⟩ := by
  simp [handleEvent, hd, hdep, hs, addMsg]

/-- Witness for `c6_removed`: the removed option matched as `--gone`,
in both operating modes. -/
theorem c6_witness :
    handleEvent regC6 (tablesOf regC6).stable ktc0 false ⟨0, [], []⟩
        (.long ⟨"gone", true, 0⟩ (some "5")) = .cont ⟨0, [], [removedMsg "gone"]⟩
    ∧ handleEvent regC6 (tablesOf regC6).stable ktc0 true ⟨0, [], []⟩
        (.long ⟨"gone", true, 0⟩ (some "5")) = .cont ⟨0, [], [removedMsg "gone"]⟩ := by
  constructor
  · have h := c6_removed regC6 (tablesOf regC6).stable ktc0 false ⟨0, [], []⟩
      ⟨"gone", true, 0⟩ (some "5") ⟨"gone", some 'y', CKind.CONFIG_ITEM_INTEGER, some "ghost", true⟩
      "ghost" (by decide) rfl rfl
    simpa using h
  · have h := c6_removed regC6 (tablesOf regC6).stable ktc0 true ⟨0, [], []⟩
      ⟨"gone", true, 0⟩ (some "5") ⟨"gone", some 'y', CKind.CONFIG_ITEM_INTEGER, some "ghost", true⟩
      "ghost" (by decide) rfl rfl
    simpa using h

/-- Claim C5: a token recognized by neither table yields the unknown
signal; in strict mode the call prints the diagnostic and returns `-1`
with no store write for that token or any later event; in permissive
mode the token is skipped silently (state unchanged, nothing printed)
and, for a well-formed registry, the whole call returns `0` with no
undefined behaviour. -/
theorem c5_unknown (reg : List module_config_t) (ktc : String → Int)
    (argv : List String) (tok : String) (pre post : List GEvent)
    (ot nt : List String) (s1 s : HState)
    (hscan : scanArgs (tablesOf reg).longs (tablesOf reg).sspec argv
        = ⟨pre ++ GEvent.unknown tok :: post, ot, nt⟩)
    (hpre : runEvents reg (tablesOf reg).stable ktc false ⟨0, [], []⟩ pre
        = .cont s1)
    (hwf : WellFormedR reg) :
    (config_LoadCmdLine reg ktc false argv).status = -1
    ∧ (config_LoadCmdLine reg ktc false argv).writes = s1.writes
    ∧ (config_LoadCmdLine reg ktc false argv).msgs = s1.msgs ++ [unknownMsg]
    ∧ handleEvent reg (tablesOf reg).stable ktc true s (.unknown tok) = .cont s
    ∧ (config_LoadCmdLine reg ktc true argv).status = 0
    ∧ (config_LoadCmdLine reg ktc true argv).ub = false := by
  have hstep : handleEvent reg (tablesOf reg).stable ktc false s1 (.unknown tok)
      = .abort (addMsg s1 unknownMsg) := by
    simp [handleEvent]
  have hrun : runEvents reg (tablesOf reg).stable ktc false ⟨0, [], []⟩
      (pre ++ GEvent.unknown tok :: post) = .abort (addMsg s1 unknownMsg) := by
    rw [runEvents_append, hpre]
    simp [runEvents, hstep]
  refine ⟨?_, ?_, ?_, by simp [handleEvent], (load_permissive_ok reg ktc argv hwf).1,
    (load_permissive_ok reg ktc argv hwf).2⟩
  · simp [config_LoadCmdLine, hscan, hrun]
  · simp [config_LoadCmdLine, hscan, hrun, StepOut.state, addMsg]
  · simp [config_LoadCmdLine, hscan, hrun, StepOut.state, addMsg]

/-- Witness for `c5_unknown`: `--bogus --foo` on the one-Bool registry. -/
theorem c5_witness :
    (config_LoadCmdLine regW3 ktc0 false ["--bogus", "--foo"]).status = -1
    ∧ (config_LoadCmdLine regW3 ktc0 false ["--bogus", "--foo"]).writes = []
    ∧ (config_LoadCmdLine regW3 ktc0 false ["--bogus", "--foo"]).msgs = [unknownMsg]
    ∧ handleEvent regW3 (tablesOf regW3).stable ktc0 true ⟨0, [], []⟩
        (.unknown "--bogus") = .cont ⟨0, [], []⟩
    ∧ (config_LoadCmdLine regW3 ktc0 true ["--bogus", "--foo"]).status = 0
    ∧ (config_LoadCmdLine regW3 ktc0 true ["--bogus", "--foo"]).ub = false := by
  have h := c5_unknown regW3 ktc0 ["--bogus", "--foo"] "--bogus"
    [] [GEvent.long ⟨"foo", false, 0⟩ none] ["--bogus", "--foo"] []
    ⟨0, [], []⟩ ⟨0, [], []⟩ (by decide) rfl (by decide)
  exact ⟨h.1, by simpa using h.2.1, by simpa using h.2.2.1, h.2.2.2.1,
         h.2.2.2.2.1, h.2.2.2.2.2⟩

theorem takeWhile_v_replicate (k : Nat) :
    (List.replicate k 'v').takeWhile (fun c => c == 'v') = List.replicate k 'v' := by
  induction k with
  | zero => rfl
  | succ m ih => simp [List.replicate_succ, List.takeWhile_cons, ih]

theorem vAdd_replicate (m : Nat) :
    vAdd (some (String.mk (List.replicate (m + 1) 'v'))) = 1 + ((m : Int) + 1) := by
  simp only [vAdd]
  simp only [List.replicate_succ, List.takeWhile_cons, takeWhile_v_replicate]
  simp

/-- Claim C2: the verbosity short option accumulates a call-scoped
counter — the handler adds `vAdd optarg` to the counter and writes the
cumulative value (not the increment) to the store after each
occurrence; a missing optional argument adds 1; an attached cluster of
`k+1` letters `v` adds `1 + (k+1)` (the flag plus one per character);
and across a whole event run the counter is the sum of the increments.
Concretely `-v -v -v` stores 1,2,3; `-vv` stores 2; `-v2` stores 2;
`-v -vv` stores 1 then 3. -/
theorem c2_verbosity (reg : List module_config_t)
    (stable : List (Char × module_config_t)) (ktc : String → Int) (ig : Bool)
    (d : module_config_t) (s : HState) (arg : Option String)
    (l : List (Option String)) (m : Nat)
    (hv : lookupShort stable 'v' = some d)
    (hk : d.i_type = CKind.CONFIG_ITEM_INTEGER) :
    handleEvent reg stable ktc ig s (.short 'v' arg)
      = .cont ⟨s.i_verbose + vAdd arg,
               s.writes ++ [(d.psz_name, CVal.vInt (s.i_verbose + vAdd arg))], s.msgs⟩
    ∧ vAdd none = 1
    ∧ vAdd (some (String.mk (List.replicate (m + 1) 'v'))) = 1 + ((m : Int) + 1)
    ∧ (∃ s2, runEvents reg stable ktc ig s (l.map (fun a0 => GEvent.short 'v' a0))
          = .cont s2 ∧ s2.i_verbose = s.i_verbose + (l.map vAdd).sum)
    ∧ (config_LoadCmdLine vReg ktc0 true ["-v", "-v", "-v"]).writes
        = [("verbose", CVal.vInt 1), ("verbose", CVal.vInt 2), ("verbose", CVal.vInt 3)]
    ∧ (config_LoadCmdLine vReg ktc0 true ["-vv"]).writes = [("verbose", CVal.vInt 2)]
    ∧ (config_LoadCmdLine vReg ktc0 true ["-v2"]).writes = [("verbose", CVal.vInt 2)]
    ∧ (config_LoadCmdLine vReg ktc0 true ["-v", "-vv"]).writes
        = [("verbose", CVal.vInt 1), ("verbose", CVal.vInt 3)] := by
  have hstep : ∀ (s1 : HState) (a0 : Option String),
      handleEvent reg stable ktc ig s1 (.short 'v' a0)
        = .cont ⟨s1.i_verbose + vAdd a0,
                 s1.writes ++ [(d.psz_name, CVal.vInt (s1.i_verbose + vAdd a0))],
                 s1.msgs⟩ := by
    intro s1 a0
    simp [handleEvent, hv, hk]
  have hacc : ∀ (l0 : List (Option String)) (s1 : HState),
      ∃ s2, runEvents reg stable ktc ig s1 (l0.map (fun a0 => GEvent.short 'v' a0))
          = .cont s2 ∧ s2.i_verbose = s1.i_verbose + (l0.map vAdd).sum := by
    intro l0
    induction l0 with
    | nil => intro s1; exact ⟨s1, rfl, by simp⟩
    | cons a0 as ih =>
        intro s1
        obtain ⟨s2, hrun, hver⟩ := ih ⟨s1.i_verbose + vAdd a0,
          s1.writes ++ [(d.psz_name, CVal.vInt (s1.i_verbose + vAdd a0))], s1.msgs⟩
        refine ⟨s2, ?_, ?_⟩
        · simp only [List.map_cons, runEvents, hstep s1 a0]
          exact hrun
        · rw [hver]
          simp only [List.map_cons, List.sum_cons]
          ring
  exact ⟨hstep s arg, rfl, vAdd_replicate m, hacc l s,
         by decide, by decide, by decide, by decide⟩

/-- Witness for `c2_verbosity` at the verbosity registry. -/
theorem c2_witness :
    handleEvent vReg (tablesOf vReg).stable ktc0 true ⟨0, [], []⟩ (.short 'v' none)
      = .cont ⟨1, [("verbose", CVal.vInt 1)], []⟩
    ∧ vAdd none = 1
    ∧ vAdd (some (String.mk (List.replicate 2 'v'))) = 3
    ∧ (∃ s2, runEvents vReg (tablesOf vReg).stable ktc0 true ⟨0, [], []⟩
          ([none, some "v"].map (fun a0 => GEvent.short 'v' a0))
          = .cont s2 ∧ s2.i_verbose = 0 + ([none, some "v"].map vAdd).sum)
    ∧ (config_LoadCmdLine vReg ktc0 true ["-v", "-vv"]).writes
        = [("verbose", CVal.vInt 1), ("verbose", CVal.vInt 3)] := by
  have h := c2_verbosity vReg (tablesOf vReg).stable ktc0 true
    ⟨"verbose", some 'v', CKind.CONFIG_ITEM_INTEGER, none, false⟩
    ⟨0, [], []⟩ none [none, some "v"] 1 (by decide) rfl
  refine ⟨?_, h.2.1, ?_, h.2.2.2.1, h.2.2.2.2.2.2.2⟩
  · rw [h.1]; decide
  · rw [h.2.2.1]; decide

/-- Claim C7: a non-verbosity Integer option parses its raw text with
base-agnostic `strtol` — `"0x10"` stores 16, malformed text stores 0 —
and the coercion always continues the loop (it never fails the call, in
either mode), both for long matches and for short matches. -/
theorem c7_integer (reg : List module_config_t)
    (stable : List (Char × module_config_t)) (ktc : String → Int) (ig : Bool)
    (s : HState) (ent : getopt_option) (a : Option String)
    (d : module_config_t) (c : Char) (str : String) (d2 : module_config_t)
    (h1 : config_FindConfig reg (resolvedName ent) = some d)
    (h2 : d.psz_current = none) (h3 : d.i_type = CKind.CONFIG_ITEM_INTEGER)
    (h4 : lookupShort stable c = some d2)
    (h5 : d2.i_type = CKind.CONFIG_ITEM_INTEGER) (h6 : ¬ c = 'v') :
    strtol "0x10" = 16
    ∧ strtol "notanumber" = 0
    ∧ handleEvent reg stable ktc ig s (.long ent a)
        = .cont ⟨s.i_verbose,
                 s.writes ++ [(resolvedName ent, CVal.vInt (strtol (optargStr a)))],
                 s.msgs⟩
    ∧ handleEvent reg stable ktc ig s (.short c (some str))
        = .cont ⟨s.i_verbose, s.writes ++ [(d2.psz_name, CVal.vInt (strtol str))],
                 s.msgs⟩
    ∧ (config_LoadCmdLine iReg ktc0 true ["--num", "0x10"]).writes
        = [("num", CVal.vInt 16)]
    ∧ (config_LoadCmdLine iReg ktc0 false ["--num", "notanumber"]).writes
        = [("num", CVal.vInt 0)]
    ∧ (config_LoadCmdLine iReg ktc0 false ["--num", "notanumber"]).status = 0 := by
  refine ⟨by decide, by decide, ?_, ?_, by decide, by decide, by decide⟩
  · simp [handleEvent, h1, h2, doWrite, coerceVal, h3]
  · simp [handleEvent, h4, h5, h6, optargStr]

/-- Witness for `c7_integer`: the Integer option `num` matched long with
text `0x10`, and the Integer short flag `x` with text `5`. -/
theorem c7_witness :
    strtol "0x10" = 16
    ∧ strtol "notanumber" = 0
    ∧ handleEvent iReg (tablesOf regC1).stable ktc0 true ⟨0, [], []⟩
        (.long ⟨"num", true, 0⟩ (some "0x10"))
        = .cont ⟨0, [("num", CVal.vInt 16)], []⟩
    ∧ handleEvent iReg (tablesOf regC1).stable ktc0 true ⟨0, [], []⟩
        (.short 'x' (some "5"))
        = .cont ⟨0, [("oldx", CVal.vInt 5)], []⟩
    ∧ (config_LoadCmdLine iReg ktc0 true ["--num", "0x10"]).writes
        = [("num", CVal.vInt 16)] := by
  have h := c7_integer iReg (tablesOf regC1).stable ktc0 true ⟨0, [], []⟩
    ⟨"num", true, 0⟩ (some "0x10")
    ⟨"num", none, CKind.CONFIG_ITEM_INTEGER, none, false⟩ 'x' "5"
    ⟨"oldx", some 'x', CKind.CONFIG_ITEM_INTEGER, some "newx", false⟩
    (by decide) rfl rfl (by decide) rfl (by decide)
  refine ⟨h.1, h.2.1, ?_, ?_, h.2.2.2.2.1⟩
  · rw [h.2.2.1]; decide
  · rw [h.2.2.2.1]; decide

/-- Claim C8: a permissive-mode call leaves the caller's argument array
unchanged (the scan runs over a private duplicate), while a strict-mode
call may reorder it in place: on `["afile", "--foo"]` the strict scan
permutes the caller's array to `["--foo", "afile"]`. -/
theorem c8_argv_ownership (reg : List module_config_t) (ktc : String → Int)
    (argv : List String) :
    (config_LoadCmdLine reg ktc true argv).callerArgv = argv
    ∧ (config_LoadCmdLine regW3 ktc0 false ["afile", "--foo"]).callerArgv
        = ["--foo", "afile"]
    ∧ ¬ (["--foo", "afile"] : List String) = ["afile", "--foo"] := by
  refine ⟨?_, by decide, by decide⟩
  simp [config_LoadCmdLine]

/-- Claim C10: the redirected replacement of a deprecated option is
re-looked-up in the live registry and used without a failure check —
under the precondition that every replacement name resolves, the call
never reaches the NULL-descriptor dereference of line 310; a registry
whose replacement name is absent drives a permissive call into exactly
that failure branch. -/
theorem c10_replacement (reg : List module_config_t) (ktc : String → Int)
    (argv : List String) (hwf : WellFormedR reg) :
    (config_LoadCmdLine reg ktc true argv).ub = false
    ∧ (config_LoadCmdLine regC10 ktc0 true ["--olddang", "7"]).ub = true :=
  ⟨(load_permissive_ok reg ktc argv hwf).2, by decide⟩

/-- Witness for `c10_replacement` at a well-formed registry. -/
theorem c10_witness :
    (config_LoadCmdLine regW3 ktc0 true ["--foo"]).ub = false
    ∧ (config_LoadCmdLine regC10 ktc0 true ["--olddang", "7"]).ub = true :=
  c10_replacement regW3 ktc0 ["--foo"] (by decide)

end Cmdline
